import Mathlib

/-!
Verification of the py_whisper transcription service against its
natural-language specification.

Each Python function relevant to the claims is shallowly embedded as a
Lean definition: Python strings become `String` (or `List Char` where
character-level reasoning is needed), byte strings become `List ℕ`,
floating-point seconds become `ℚ`, `None`able values become `Option`,
raised exceptions become `Except`.  Stateful components (the rate
limiter's per-client ledger, the Redis job store) become explicit state
passing.  Nondeterministic inputs (the current time, the generated
`uuid4().hex` token) become explicit parameters.
-/

namespace PyWhisper

/-- Python `int(x)` on a real value: truncation toward zero. -/
def pyInt (q : ℚ) : ℤ := if q < 0 then ⌈q⌉ else ⌊q⌋

/-! ## Rate limiter (`app/api/dependencies.py`, class `RateLimiter`)

The ledger maps a client id to the list of recorded request timestamps
(seconds, as rationals).  `checkRateLimit` embeds
`RateLimiter.check_rate_limit`: prune entries at least 60 seconds old,
reject if the remaining count reaches the per-minute cap, otherwise
record `now` and accept. -/

def Ledger : Type := String → List ℚ

/-- The list comprehension keeping `req_time > now - timedelta(minutes=1)`. -/
def pruneRequests (now : ℚ) (l : List ℚ) : List ℚ :=
  l.filter (fun t => now - 60 < t)

/-- Assignment `self.requests[client_id] = v` on the defaultdict. -/
def updateLedger (led : Ledger) (c : String) (v : List ℚ) : Ledger :=
  fun c' => if c' = c then v else led c'

/-- `RateLimiter.check_rate_limit(client_id)` called at time `now`,
returning the boolean outcome and the updated ledger. -/
def checkRateLimit (limit : ℕ) (led : Ledger) (c : String) (now : ℚ) :
    Bool × Ledger :=
  let pruned := pruneRequests now (led c)
  if limit ≤ pruned.length then
    (false, updateLedger led c pruned)
  else
    (true, updateLedger led c (pruned ++ [now]))

/-- A sequence of `check_rate_limit` calls for one client at the given
times, collecting the outcomes. -/
def runChecks (limit : ℕ) (c : String) (led : Ledger) :
    List ℚ → List Bool × Ledger
  | [] => ([], led)
  | t :: ts =>
    let r := checkRateLimit limit led c t
    let rest := runChecks limit c r.2 ts
    (r.1 :: rest.1, rest.2)

/-! ## Processing-time estimate (`app/services/job_service.py`) -/

/-- The `multipliers` table with `.get(model, 0.1)` lookup. -/
def modelMultiplier (model : String) : ℚ :=
  if model = "tiny" then 1/20
  else if model = "base" then 1/10
  else if model = "small" then 1/5
  else if model = "medium" then 1/2
  else if model = "large" then 1
  else if model = "large-v3" then 1
  else 1/10

/-- `JobService.estimate_processing_time`, with the configured
`settings.whisper_device` passed explicitly.  The Python code returns
`int(duration * multiplier)`, scaling the multiplier by 0.3 on "cuda". -/
def estimate_processing_time (duration : ℚ) (model device : String) : ℤ :=
  let m := modelMultiplier model
  let m := if device = "cuda" then m * (3/10) else m
  pyInt (duration * m)

/-- Modelled from the claim's words for comparison: the claim states the
function returns `round(duration × multiplier)`. -/
def estimate_processing_time_claim (duration : ℚ) (model device : String) : ℤ :=
  let m := modelMultiplier model
  let m := if device = "cuda" then m * (3/10) else m
  round (duration * m)

/-! ## Health classification (`app/api/routes/health.py`, `health_check`) -/

/-- Overall-status computation from the check values: the two critical
checks are booleans, the two optional checks are `Option Bool` (`none`
models Python `None`). -/
def healthStatus (modelLoaded tempDirWritable : Bool)
    (redisConnected celeryWorkers : Option Bool) : String :=
  if !(modelLoaded && tempDirWritable) then "unhealthy"
  else if (redisConnected == some false) || (celeryWorkers == some false) then
    "degraded"
  else "healthy"

/-- The `health_check` route's construction of the checks dict and the
overall status: optional checks are `None` when async is disabled. -/
def healthCheckStatus (enableAsync modelLoaded tempDirWritable redisOk
    celeryOk : Bool) : String × Option Bool × Option Bool :=
  let rc : Option Bool := if enableAsync then some redisOk else none
  let cw : Option Bool := if enableAsync then some celeryOk else none
  (healthStatus modelLoaded tempDirWritable rc cw, rc, cw)

/-! ## Timestamp formatting (`app/core/transcription/formatter.py`)

Python integer `//` and `%` are floored division and modulus; for the
positive divisors 3600 and 60 these coincide with `Int.ediv` and
`Int.emod`. -/

/-- Python `f"{n:02d}"` for the hour/minute/second fields. -/
def pad2 (n : ℤ) : String :=
  if 0 ≤ n ∧ n < 10 then "0" ++ toString n else toString n

/-- Python `f"{n:03d}"` for the millisecond field. -/
def pad3 (n : ℤ) : String :=
  if 0 ≤ n ∧ n < 10 then "00" ++ toString n
  else if 0 ≤ n ∧ n < 100 then "0" ++ toString n
  else toString n

/-- `OutputFormatter._format_timestamp_srt`. -/
def format_timestamp_srt (seconds : ℚ) : String :=
  let totalSeconds := pyInt seconds
  let hours := totalSeconds.ediv 3600
  let minutes := (totalSeconds.emod 3600).ediv 60
  let secs := totalSeconds.emod 60
  let millis := pyInt ((seconds - (totalSeconds : ℚ)) * 1000)
  pad2 hours ++ ":" ++ pad2 minutes ++ ":" ++ pad2 secs ++ "," ++ pad3 millis

/-- `OutputFormatter._format_timestamp_vtt`. -/
def format_timestamp_vtt (seconds : ℚ) : String :=
  let totalSeconds := pyInt seconds
  let hours := totalSeconds.ediv 3600
  let minutes := (totalSeconds.emod 3600).ediv 60
  let secs := totalSeconds.emod 60
  let millis := pyInt ((seconds - (totalSeconds : ℚ)) * 1000)
  pad2 hours ++ ":" ++ pad2 minutes ++ ":" ++ pad2 secs ++ "." ++ pad3 millis

/-! ## Secure file paths (`app/utils/file_handler.py`)

Paths are modelled as lists of components (each a `List Char`); the base
directory is already resolved (the constructor resolves it).  `resolve()`
on a non-existing path is lexical normalization of `.` and `..` (symlinks
are not modelled).  `str()` of an absolute path renders components
separated by `/`. -/

/-- Extension part of `os.path.splitext` (posixpath `_splitext` with
separator `/`): the suffix from the last dot of the basename, unless all
characters of the basename before that dot are dots. -/
def splitextExt (p : List Char) : List Char :=
  let base := (p.reverse.takeWhile (fun c => c ≠ '/')).reverse
  let rb := base.reverse
  let pre := rb.takeWhile (fun c => c ≠ '.')
  if pre.length = rb.length then []
  else if (rb.drop (pre.length + 1)).any (fun c => c ≠ '.') then
    (pre ++ ['.']).reverse
  else []

/-- Python `str.split` on `/`, used to model how `pathlib` decomposes a
joined name into path components. -/
def splitComps : List Char → List (List Char)
  | [] => [[]]
  | c :: rest =>
    match splitComps rest with
    | [] => []
    | h :: t => if c = '/' then [] :: h :: t else (c :: h) :: t

/-- `base / name` in `pathlib`: append the name's components (empty
components are dropped, as `PurePath` does). -/
def joinRel (base : List (List Char)) (name : List Char) :
    List (List Char) :=
  base ++ (splitComps name).filter (fun c => c ≠ [])

/-- Lexical `Path.resolve()` on the components of an absolute path:
drop `.`, let `..` remove the previous component. -/
def resolveComponents (comps : List (List Char)) : List (List Char) :=
  comps.foldl
    (fun acc c =>
      if c = ['.'] then acc
      else if c = ['.', '.'] then acc.dropLast
      else acc ++ [c])
    []

/-- `str()` of an absolute path with the given components. -/
def renderPath (comps : List (List Char)) : List Char :=
  comps.foldl (fun acc c => acc ++ '/' :: c) []

/-- `SecureFileHandler.get_safe_path`: build `uuid.hex + ext.lower()`,
join under the base directory, resolve, and fail unless the resolved
string keeps the base directory string as a prefix.  The fresh
`uuid4().hex` token is the explicit `uniqueId` parameter. -/
def get_safe_path (baseDir : List (List Char)) (uniqueId : List Char)
    (filename : List Char) : Except String (List (List Char)) :=
  let ext := (splitextExt filename).map Char.toLower
  let safeFilename := uniqueId ++ ext
  let filePath := resolveComponents (joinRel baseDir safeFilename)
  if (renderPath baseDir).isPrefixOf (renderPath filePath) then
    Except.ok filePath
  else
    Except.error "Invalid file path - directory traversal detected"

/-! ## Upload validation (`app/utils/validators.py`) -/

/-- The two exception types raised by the validators; each carries its
message. -/
inductive VError where
  | invalidFileFormat (msg : String)
  | fileTooLarge (msg : String)
deriving DecidableEq, Repr

def ALLOWED_AUDIO_EXTENSIONS : List String :=
  [".mp3", ".wav", ".ogg", ".flac", ".m4a", ".aac", ".wma"]

def ALLOWED_VIDEO_EXTENSIONS : List String :=
  [".mp4", ".webm", ".avi", ".mov", ".mkv", ".flv"]

def ALLOWED_EXTENSIONS : List String :=
  ALLOWED_AUDIO_EXTENSIONS ++ ALLOWED_VIDEO_EXTENSIONS

def ALLOWED_MIME_TYPES : List String :=
  ["audio/mpeg", "audio/wav", "audio/ogg", "audio/flac",
   "audio/mp4", "audio/aac", "audio/x-ms-wma",
   "video/mp4", "video/webm", "video/x-msvideo",
   "video/quicktime", "video/x-matroska", "video/x-flv"]

/-- The `MAGIC_BYTES` table, with byte strings as lists of byte values
(`b"ID3"`, `b"\xff\xfb"`, ...). -/
def MAGIC_BYTES : List (String × List (List ℕ)) :=
  [(".mp3", [[73, 68, 51], [255, 251], [255, 243], [255, 242]]),
   (".wav", [[82, 73, 70, 70]]),
   (".ogg", [[79, 103, 103, 83]]),
   (".flac", [[102, 76, 97, 67]]),
   (".mp4", [[102, 116, 121, 112], [109, 100, 97, 116],
             [109, 111, 111, 118]]),
   (".webm", [[26, 69, 223, 163]]),
   (".avi", [[82, 73, 70, 70]])]

/-- Python string comparison: lexicographic on code points. -/
def charListLe : List Char → List Char → Bool
  | [], _ => true
  | _ :: _, [] => false
  | a :: as, b :: bs =>
    if a < b then true else if b < a then false else charListLe as bs

/-- Insertion into a sorted list, for `sorted(...)` below. -/
def sortedInsert (s : String) : List String → List String
  | [] => [s]
  | x :: xs =>
    if charListLe s.toList x.toList then s :: x :: xs
    else x :: sortedInsert s xs

/-- Python `sorted` on strings (lexicographic); insertion sort, whose
result on the fixed extension list is the unique sorted order. -/
def pySorted : List String → List String
  | [] => []
  | x :: xs => sortedInsert x (pySorted xs)

/-- `validate_file_extension`: lower-cased `splitext` extension, rejected
when empty or unsupported. -/
def validate_file_extension (filename : String) : Except VError String :=
  let fileExt := String.mk ((splitextExt filename.toList).map Char.toLower)
  if fileExt = "" then
    Except.error (VError.invalidFileFormat "File has no extension")
  else if !(ALLOWED_EXTENSIONS.contains fileExt) then
    Except.error (VError.invalidFileFormat
      ("Unsupported file format: " ++ fileExt ++ ". Supported formats: " ++
        String.intercalate ", " (pySorted ALLOWED_EXTENSIONS)))
  else
    Except.ok fileExt

/-- `validate_mime_type`. -/
def validate_mime_type (contentType : String) : Except VError Unit :=
  if !(ALLOWED_MIME_TYPES.contains contentType) then
    Except.error (VError.invalidFileFormat
      ("Invalid MIME type: " ++ contentType))
  else
    Except.ok ()

/-- Python `f"{x:.2f}"` on a non-negative value: two decimal places,
ties rounded to even (the formatter rounds the nearest binary double; on
the unambiguous values appearing here the results agree). -/
def format2f (q : ℚ) : String :=
  let c := q * 100
  let fl := ⌊c⌋
  let frac := c - (fl : ℚ)
  let n : ℤ :=
    if 1/2 < frac then fl + 1
    else if frac < 1/2 then fl
    else if fl.emod 2 = 0 then fl else fl + 1
  toString (n.ediv 100) ++ "." ++
    (if n.emod 100 < 10 then "0" else "") ++ toString (n.emod 100)

/-- `validate_file_size`, with `settings.max_file_size` passed
explicitly. -/
def validate_file_size (maxFileSize fileSize : ℕ) : Except VError Unit :=
  if maxFileSize < fileSize then
    Except.error (VError.fileTooLarge
      ("File size " ++ format2f ((fileSize : ℚ) / (1024 * 1024)) ++
        "MB exceeds limit " ++ format2f ((maxFileSize : ℚ) / (1024 * 1024)) ++
        "MB"))
  else
    Except.ok ()

/-- Python `needle in haystack` on byte strings: contiguous-substring
containment. -/
def bytesContains (needle : List ℕ) : List ℕ → Bool
  | [] => needle.isEmpty
  | x :: rest => needle.isPrefixOf (x :: rest) || bytesContains needle rest

/-- `validate_magic_bytes`: `True` when no magic is registered for the
extension, otherwise whether some registered byte string occurs inside
the header (Python `magic in header` is containment, not a prefix
test). -/
def validate_magic_bytes (header : List ℕ) (fileExt : String) : Bool :=
  match MAGIC_BYTES.find? (fun p => p.1 = fileExt) with
  | none => true
  | some p => p.2.any (fun magic => bytesContains magic header)

/-- An uploaded file: name, declared MIME type, full byte content, and
current stream position. -/
structure UploadFile where
  filename : String
  contentType : String
  content : List ℕ
  pos : ℕ
deriving DecidableEq

/-- `validate_upload_file`: extension, MIME, size, then magic bytes, in
that order, short-circuiting on the first failure.  `seek(0, 2)` /
`tell()` give the byte size, `read(32)` gives the header, and the stream
is repositioned at the start before returning. -/
def validate_upload_file (maxFileSize : ℕ) (file : UploadFile) :
    Except VError (String × ℕ × UploadFile) := do
  let fileExt ← validate_file_extension file.filename
  let _ ← validate_mime_type file.contentType
  let fileSize := file.content.length
  let _ ← validate_file_size maxFileSize fileSize
  let header := file.content.take 32
  if !(validate_magic_bytes header fileExt) then
    Except.error (VError.invalidFileFormat
      ("File header does not match " ++ fileExt ++ " format"))
  else
    Except.ok (fileExt, fileSize, { file with pos := 0 })

/-! ## Job store (`app/core/redis_client.py`, `app/services/job_service.py`,
`app/api/routes/jobs.py`, `src/tasks/transcription_tasks.py`)

A job record keeps the fields the claims are about; `created_at`, the
parameters and the metadata dict are omitted as no claim mentions them.
The store maps job ids to records; timestamps (`datetime.utcnow()`) are
explicit rational parameters. -/

inductive JStatus where
  | pending
  | processing
  | completed
  | failed
  | cancelled
deriving DecidableEq, Repr

structure JobRecord where
  status : JStatus
  progress : Option ℤ
  result : Option String
  error : Option String
  detail : Option String
  startedAt : Option ℚ
  completedAt : Option ℚ
  failedAt : Option ℚ
deriving DecidableEq

/-- The record written by `RedisClient.create_job`: status "pending",
every other tracked field absent. -/
def createJobRecord : JobRecord :=
  { status := JStatus.pending
    progress := none
    result := none
    error := none
    detail := none
    startedAt := none
    completedAt := none
    failedAt := none }

/-- The keyword arguments of `RedisClient.update_job`; `none` models an
argument left at its `None` default. -/
structure UpdateArgs where
  status : Option JStatus := none
  progress : Option ℤ := none
  result : Option String := none
  error : Option String := none
  detail : Option String := none

/-- Field updates of `RedisClient.update_job` on an existing record:
the status block (start stamp only when absent, completion stamp plus
progress 100, failure stamp), then the explicit `progress`, `result`,
`error`, `detail` arguments in that order. -/
def update_job (now : ℚ) (d : JobRecord) (a : UpdateArgs) : JobRecord :=
  let d :=
    match a.status with
    | none => d
    | some s =>
      let d1 := { d with status := s }
      if s = JStatus.processing ∧ d.startedAt = none then
        { d1 with startedAt := some now }
      else if s = JStatus.completed then
        { d1 with completedAt := some now, progress := some 100 }
      else if s = JStatus.failed then
        { d1 with failedAt := some now }
      else d1
  let d :=
    match a.progress with
    | none => d
    | some p => { d with progress := some p }
  let d :=
    match a.result with
    | none => d
    | some r => { d with result := some r }
  let d :=
    match a.error with
    | none => d
    | some e => { d with error := some e }
  match a.detail with
  | none => d
  | some dd => { d with detail := some dd }

def JobStore : Type := String → Option JobRecord

/-- `RedisClient.update_job` at the store level: a missing job yields
`False` and no change. -/
def storeUpdateJob (now : ℚ) (store : JobStore) (jobId : String)
    (a : UpdateArgs) : Bool × JobStore :=
  match store jobId with
  | none => (false, store)
  | some d =>
    (true, fun k => if k = jobId then some (update_job now d a) else store k)

/-- The `update_job` calls the repository makes after job creation: the
progress updates of `TranscriptionTask.update_progress` and the initial
processing update (status "processing" with a progress value), completion
with a result and progress 100, the two failure paths (error "timeout" /
"transcription_failed" with a detail), and cancellation. -/
inductive JobOp where
  | updateProgress (p : ℤ)
  | complete (res : String)
  | failTimeout (detail : String)
  | failTranscription (detail : String)
  | cancel

/-- The keyword arguments each call site passes to `update_job`. -/
def opArgs : JobOp → UpdateArgs
  | JobOp.updateProgress p =>
    { status := some JStatus.processing, progress := some p }
  | JobOp.complete r =>
    { status := some JStatus.completed, progress := some 100,
      result := some r }
  | JobOp.failTimeout d =>
    { status := some JStatus.failed, error := some "timeout",
      detail := some d }
  | JobOp.failTranscription d =>
    { status := some JStatus.failed, error := some "transcription_failed",
      detail := some d }
  | JobOp.cancel => { status := some JStatus.cancelled }

/-- Apply a timed sequence of job-store operations to a record. -/
def runOps (record : JobRecord) : List (ℚ × JobOp) → JobRecord
  | [] => record
  | (t, op) :: rest => runOps (update_job t record (opArgs op)) rest

/-! ## Job deletion and cancellation -/

/-- `RedisClient.delete_job`: `DEL` both keys and return `True`
unconditionally (the `except` branch is unreachable in this model). -/
def redis_delete_job (store : JobStore) (jobId : String) :
    Bool × JobStore :=
  (true, fun k => if k = jobId then none else store k)

/-- `JobService.delete_job`: clean up the file (irrelevant to the store)
and return the Redis deletion result.  Note: no existence or status
check is performed. -/
def service_delete_job (store : JobStore) (jobId : String) :
    Bool × JobStore :=
  redis_delete_job store jobId

/-- The DELETE `/api/v1/jobs/JOB` route: HTTP status plus optional error
kind, and the resulting store. -/
def route_delete_job (store : JobStore) (jobId : String) :
    (ℕ × Option String) × JobStore :=
  let r := service_delete_job store jobId
  if r.1 then ((200, none), r.2) else ((404, some "job_not_found"), r.2)

/-- `JobService.cancel_job`: `False` when the job is missing or not
pending/processing; otherwise set status "cancelled" and return
`True`. -/
def service_cancel_job (now : ℚ) (store : JobStore) (jobId : String) :
    Bool × JobStore :=
  match store jobId with
  | none => (false, store)
  | some j =>
    if j.status = JStatus.pending ∨ j.status = JStatus.processing then
      (true,
        (storeUpdateJob now store jobId
          { status := some JStatus.cancelled }).2)
    else (false, store)

/-- The POST `/api/v1/jobs/JOB/cancel` route. -/
def route_cancel_job (now : ℚ) (store : JobStore) (jobId : String) :
    (ℕ × Option String) × JobStore :=
  let r := service_cancel_job now store jobId
  if r.1 then ((200, none), r.2) else ((400, some "cannot_cancel"), r.2)

end PyWhisper

namespace PyWhisper

/-! ## Helper lemmas -/

lemma pyInt_eq_floor (q : ℚ) (h : 0 ≤ q) : pyInt q = ⌊q⌋ := by
  simp [pyInt, not_lt.mpr h]

lemma modelMultiplier_nonneg (model : String) : 0 ≤ modelMultiplier model := by
  unfold modelMultiplier
  repeat' split
  all_goals norm_num

/-- The record-level invariant each repository operation (re)establishes. -/
def recordInvariant (r : JobRecord) : Prop :=
  (r.status = JStatus.completed →
    r.progress = some 100 ∧ r.result ≠ none) ∧
  (r.status = JStatus.failed → r.error ≠ none)

lemma update_job_op_invariant (t : ℚ) (r : JobRecord) (op : JobOp) :
    recordInvariant (update_job t r (opArgs op)) := by
  cases op <;> cases hst : r.startedAt <;>
    simp [recordInvariant, update_job, opArgs, hst]

lemma runOps_invariant (ops : List (ℚ × JobOp)) :
    ∀ r : JobRecord, recordInvariant r →
      recordInvariant (runOps r ops) := by
  induction ops with
  | nil => intro r h; exact h
  | cons hd tl ih =>
    intro r _
    exact ih _ (update_job_op_invariant hd.1 r hd.2)

lemma createJobRecord_invariant : recordInvariant createJobRecord := by
  simp [recordInvariant, createJobRecord]

end PyWhisper

namespace PyWhisper

/-- C3: the claim says DELETE `/api/v1/jobs/JOB` answers 404 for a
missing or non-deletable job and 200 only for an existing deletable one;
the code's `JobService.delete_job` performs no existence or status check
and `RedisClient.delete_job` returns `True` unconditionally, so the
route answers 200 with no error for every store and every job id — the
404 branch is unreachable. -/
theorem c3_delete_job_route_always_succeeds :
    ∀ (store : JobStore) (jobId : String),
      (route_delete_job store jobId).1 = (200, none) ∧
      (route_delete_job store jobId).2 jobId = none := by
  intro store jobId
  constructor <;> simp [route_delete_job, service_delete_job, redis_delete_job]

/-- C6 counterexample: `update_job` with status "completed" and an
explicit progress argument of 50 leaves progress at 50 (the explicit
argument overwrites the forced 100) and leaves the result absent, so as
a statement about arbitrary `update_job` calls the claim fails. -/
theorem c6_update_job_progress_override_cex :
    (update_job 0 createJobRecord
        { status := some JStatus.completed, progress := some 50 }).status =
      JStatus.completed ∧
    (update_job 0 createJobRecord
        { status := some JStatus.completed, progress := some 50 }).progress =
      some 50 ∧
    (update_job 0 createJobRecord
        { status := some JStatus.completed, progress := some 50 }).result =
      none :=
  ⟨rfl, rfl, rfl⟩

/-- C6 (amended): over the `update_job` calls the repository actually
issues, starting from `create_job`, a completed record carries
progress 100 and a result and a failed record carries an error; and
`update_job` stamps the start time only the first time "processing" is
set, stamps the completion time on "completed" (forcing progress 100
when no explicit progress argument overrides it), and stamps the failure
time on "failed". -/
theorem c6_job_store_invariants :
    (∀ ops : List (ℚ × JobOp),
      ((runOps createJobRecord ops).status = JStatus.completed →
        (runOps createJobRecord ops).progress = some 100 ∧
        (runOps createJobRecord ops).result ≠ none) ∧
      ((runOps createJobRecord ops).status = JStatus.failed →
        (runOps createJobRecord ops).error ≠ none)) ∧
    (∀ (now : ℚ) (d : JobRecord) (a : UpdateArgs),
      a.status = some JStatus.processing → d.startedAt = none →
      (update_job now d a).startedAt = some now) ∧
    (∀ (now : ℚ) (d : JobRecord) (a : UpdateArgs) (t0 : ℚ),
      d.startedAt = some t0 → (update_job now d a).startedAt = some t0) ∧
    (∀ (now : ℚ) (d : JobRecord) (a : UpdateArgs),
      a.status = some JStatus.completed →
      (update_job now d a).completedAt = some now ∧
      (a.progress = none → (update_job now d a).progress = some 100)) ∧
    (∀ (now : ℚ) (d : JobRecord) (a : UpdateArgs),
      a.status = some JStatus.failed →
      (update_job now d a).failedAt = some now) := by
  refine ⟨?_, ?_, ?_, ?_, ?_⟩
  · intro ops
    exact runOps_invariant ops createJobRecord createJobRecord_invariant
  · intro now d a hs hstart
    obtain ⟨as, ap, ar, ae, ad⟩ := a
    cases as with
    | none => simp at hs
    | some s =>
      cases hs
      cases ap <;> cases ar <;> cases ae <;> cases ad <;>
        simp [update_job, hstart]
  · intro now d a t0 hstart
    obtain ⟨as, ap, ar, ae, ad⟩ := a
    cases as with
    | none =>
      cases ap <;> cases ar <;> cases ae <;> cases ad <;>
        simp [update_job, hstart]
    | some s =>
      cases s <;> cases ap <;> cases ar <;> cases ae <;> cases ad <;>
        simp [update_job, hstart]
  · intro now d a hs
    obtain ⟨as, ap, ar, ae, ad⟩ := a
    cases as with
    | none => simp at hs
    | some s =>
      cases hs
      constructor
      · cases ap <;> cases ar <;> cases ae <;> cases ad <;>
          simp [update_job]
      · intro hp
        cases hp
        cases ar <;> cases ae <;> cases ad <;> simp [update_job]
  · intro now d a hs
    obtain ⟨as, ap, ar, ae, ad⟩ := a
    cases as with
    | none => simp at hs
    | some s =>
      cases hs
      cases ap <;> cases ar <;> cases ae <;> cases ad <;>
        simp [update_job]

theorem c6_job_store_invariants_witness :
    (runOps createJobRecord [((0 : ℚ), JobOp.complete "text")]).status =
      JStatus.completed ∧
    (runOps createJobRecord [((0 : ℚ), JobOp.complete "text")]).progress =
      some 100 :=
  ⟨rfl, ((c6_job_store_invariants.1 [((0 : ℚ), JobOp.complete "text")]).1 rfl).1⟩

/-- C9: cancelling an unknown job id takes the same path as cancelling a
job in a terminal state: `JobService.cancel_job` returns `False` without
raising, and the cancel route answers 400 with error kind
"cannot_cancel", not 404. -/
theorem c9_cancel_unknown_job_same_as_terminal :
    (∀ (now : ℚ) (store : JobStore) (jobId : String),
      store jobId = none →
      service_cancel_job now store jobId = (false, store) ∧
      (route_cancel_job now store jobId).1 = (400, some "cannot_cancel")) ∧
    (∀ (now : ℚ) (store : JobStore) (jobId : String) (j : JobRecord),
      store jobId = some j →
      (j.status = JStatus.completed ∨ j.status = JStatus.failed ∨
        j.status = JStatus.cancelled) →
      service_cancel_job now store jobId = (false, store) ∧
      (route_cancel_job now store jobId).1 = (400, some "cannot_cancel")) := by
  constructor
  · intro now store jobId h
    have hs : service_cancel_job now store jobId = (false, store) := by
      simp [service_cancel_job, h]
    exact ⟨hs, by simp [route_cancel_job, hs]⟩
  · intro now store jobId j h hterm
    have hns : ¬(j.status = JStatus.pending ∨ j.status = JStatus.processing) := by
      rcases hterm with h1 | h1 | h1 <;> simp [h1]
    have hs : service_cancel_job now store jobId = (false, store) := by
      simp [service_cancel_job, h, hns]
    exact ⟨hs, by simp [route_cancel_job, hs]⟩

theorem c9_cancel_unknown_job_witness :
    ((fun _ => none : JobStore) "missing" = none) ∧
    (route_cancel_job 0 (fun _ => none) "missing").1 =
      (400, some "cannot_cancel") :=
  ⟨rfl,
    (c9_cancel_unknown_job_same_as_terminal.1 0 (fun _ => none) "missing"
      rfl).2⟩

/-- C10: a rate-limit check reads and writes only the checked client's
entry: the outcome and the client's new entry depend only on that
client's previous entry, and every other client's entry is unchanged. -/
theorem c10_rate_limiter_noninterference :
    (∀ (limit : ℕ) (led1 led2 : Ledger) (c : String) (now : ℚ),
      led1 c = led2 c →
      (checkRateLimit limit led1 c now).1 =
        (checkRateLimit limit led2 c now).1 ∧
      (checkRateLimit limit led1 c now).2 c =
        (checkRateLimit limit led2 c now).2 c) ∧
    (∀ (limit : ℕ) (led : Ledger) (c other : String) (now : ℚ),
      other ≠ c →
      (checkRateLimit limit led c now).2 other = led other) := by
  constructor
  · intro limit led1 led2 c now h
    simp only [checkRateLimit, h]
    by_cases hc : limit ≤ (pruneRequests now (led2 c)).length <;>
      simp [hc, updateLedger]
  · intro limit led c other now h
    simp only [checkRateLimit]
    by_cases hc : limit ≤ (pruneRequests now (led c)).length <;>
      simp [hc, updateLedger, h]

theorem c10_rate_limiter_noninterference_witness :
    ((fun _ => [(0 : ℚ)] : Ledger) "a" =
      (fun c => if c = "a" then [(0 : ℚ)] else [(5 : ℚ)] : Ledger) "a") ∧
    (checkRateLimit 3 (fun _ => [(0 : ℚ)]) "a" 1).1 =
      (checkRateLimit 3
        (fun c => if c = "a" then [(0 : ℚ)] else [(5 : ℚ)]) "a" 1).1 :=
  ⟨rfl,
    (c10_rate_limiter_noninterference.1 3 (fun _ => [(0 : ℚ)])
      (fun c => if c = "a" then [(0 : ℚ)] else [(5 : ℚ)]) "a" 1 rfl).1⟩

end PyWhisper

namespace PyWhisper

/-- C7 counterexample: the claim says the function returns
`round(duration × multiplier)`, but the code truncates with `int(...)`:
for 9 seconds on model "base" on CPU the code yields `int(0.9) = 0`
while the claimed formula yields `round(0.9) = 1`. -/
theorem c7_estimate_rounding_cex :
    estimate_processing_time 9 "base" "cpu" = 0 ∧
    estimate_processing_time_claim 9 "base" "cpu" = 1 := by
  constructor
  · simp [estimate_processing_time, modelMultiplier, pyInt]
    norm_num
  · simp [estimate_processing_time_claim, modelMultiplier, round_eq]
    norm_num

/-- C7 (amended): `estimate_processing_time` returns the truncation
`int(duration × multiplier)` — the floor, for non-negative durations —
with the multiplier looked up from the fixed table (default 0.1) and
scaled by 0.3 when the configured device is "cuda"; 600 seconds on
"base" yields 60 on CPU and 18 on "cuda". -/
theorem c7_estimate_processing_time_floor :
    (∀ (duration : ℚ) (model device : String), 0 ≤ duration →
      estimate_processing_time duration model device =
        ⌊duration * (if device = "cuda" then modelMultiplier model * (3/10)
          else modelMultiplier model)⌋) ∧
    modelMultiplier "tiny" = 1/20 ∧
    modelMultiplier "base" = 1/10 ∧
    modelMultiplier "small" = 1/5 ∧
    modelMultiplier "medium" = 1/2 ∧
    modelMultiplier "large" = 1 ∧
    modelMultiplier "large-v3" = 1 ∧
    (∀ model : String, model ≠ "tiny" → model ≠ "base" → model ≠ "small" →
      model ≠ "medium" → model ≠ "large" → model ≠ "large-v3" →
      modelMultiplier model = 1/10) ∧
    estimate_processing_time 600 "base" "cpu" = 60 ∧
    estimate_processing_time 600 "base" "cuda" = 18 := by
  refine ⟨?_, by simp [modelMultiplier], by simp [modelMultiplier],
    by simp [modelMultiplier], by simp [modelMultiplier],
    by simp [modelMultiplier], by simp [modelMultiplier], ?_, ?_, ?_⟩
  · intro duration model device h
    have hm : 0 ≤ (if device = "cuda" then modelMultiplier model * (3/10)
        else modelMultiplier model) := by
      split
      · have := modelMultiplier_nonneg model
        linarith
      · exact modelMultiplier_nonneg model
    rw [estimate_processing_time, pyInt_eq_floor _ (mul_nonneg h hm)]
  · intro model h1 h2 h3 h4 h5 h6
    simp [modelMultiplier, h1, h2, h3, h4, h5, h6]
  · simp [estimate_processing_time, modelMultiplier, pyInt]
    norm_num
  · simp [estimate_processing_time, modelMultiplier, pyInt]
    norm_num

theorem c7_estimate_processing_time_floor_witness :
    (0 : ℚ) ≤ 600 ∧
    estimate_processing_time 600 "base" "cpu" =
      ⌊(600 : ℚ) * (if ("cpu" : String) = "cuda"
        then modelMultiplier "base" * (3/10) else modelMultiplier "base")⌋ :=
  ⟨by decide, c7_estimate_processing_time_floor.1 600 "base" "cpu" (by decide)⟩

/-- C8: the health route reports "unhealthy" whenever a critical check
(model loaded, temp dir writable) is not true, "degraded" when both
critical checks pass but an enabled optional check reports false, and
"healthy" otherwise; with async disabled the optional checks are
reported as `None` and ignored by the classification. -/
theorem c8_health_classification :
    (∀ (m t : Bool) (rc cw : Option Bool), ¬(m = true ∧ t = true) →
      healthStatus m t rc cw = "unhealthy") ∧
    (∀ (m t : Bool) (rc cw : Option Bool), m = true → t = true →
      (rc = some false ∨ cw = some false) →
      healthStatus m t rc cw = "degraded") ∧
    (∀ (m t : Bool) (rc cw : Option Bool), m = true → t = true →
      rc ≠ some false → cw ≠ some false →
      healthStatus m t rc cw = "healthy") ∧
    (∀ (m t r c : Bool),
      healthCheckStatus false m t r c =
        ((if m && t then "healthy" else "unhealthy"), none, none)) ∧
    (∀ (m t r c : Bool),
      healthCheckStatus true m t r c =
        (healthStatus m t (some r) (some c), some r, some c)) := by
  refine ⟨?_, ?_, ?_, ?_, ?_⟩ <;> decide

theorem c8_health_classification_witness :
    ¬((false : Bool) = true ∧ (true : Bool) = true) ∧
    healthStatus false true none none = "unhealthy" :=
  ⟨by decide, c8_health_classification.1 false true none none (by decide)⟩

end PyWhisper

namespace PyWhisper

lemma runChecks_cons (limit : ℕ) (c : String) (led : Ledger) (t : ℚ)
    (ts : List ℚ) :
    runChecks limit c led (t :: ts) =
      ((checkRateLimit limit led c t).1 ::
        (runChecks limit c (checkRateLimit limit led c t).2 ts).1,
       (runChecks limit c (checkRateLimit limit led c t).2 ts).2) := rfl

/-- If a client's recorded history is `done`, every time involved lies in
the open window `(u - 60, u]`, and the total count stays within the cap,
then every further check is accepted and the history accumulates. -/
lemma runChecks_all_accepted (limit : ℕ) (c : String) (u : ℚ) :
    ∀ (ts done : List ℚ) (led : Ledger),
      led c = done →
      (∀ a ∈ done, u - 60 < a ∧ a ≤ u) →
      (∀ a ∈ ts, u - 60 < a ∧ a ≤ u) →
      done.length + ts.length ≤ limit →
      (runChecks limit c led ts).1 = List.replicate ts.length true ∧
      (runChecks limit c led ts).2 c = done ++ ts := by
  intro ts
  induction ts with
  | nil =>
    intro done led hled _ _ _
    simp [runChecks, hled]
  | cons t ts ih =>
    intro done led hled hdone hts hlen
    have ht : u - 60 < t ∧ t ≤ u := hts t (by simp)
    have hlen' : done.length + ts.length + 1 ≤ limit := by
      simp only [List.length_cons] at hlen
      omega
    have hprune : pruneRequests t (led c) = done := by
      rw [hled]
      apply List.filter_eq_self.mpr
      intro a ha
      have haa := hdone a ha
      simp only [decide_eq_true_eq]
      linarith [ht.2, haa.1]
    have hlt : ¬ limit ≤ done.length := by omega
    have hcheck : checkRateLimit limit led c t =
        (true, updateLedger led c (done ++ [t])) := by
      simp [checkRateLimit, hprune, hlt]
    have hrec := ih (done ++ [t]) (updateLedger led c (done ++ [t]))
      (by simp [updateLedger])
      (by
        intro a ha
        rcases List.mem_append.mp ha with h | h
        · exact hdone a h
        · simp at h
          subst h
          exact ht)
      (fun a ha => hts a (List.mem_cons_of_mem _ ha))
      (by simp; omega)
    refine ⟨?_, ?_⟩
    · calc (runChecks limit c led (t :: ts)).1
          = true :: (runChecks limit c
              (updateLedger led c (done ++ [t])) ts).1 := by
            rw [runChecks_cons, hcheck]
      _ = true :: List.replicate ts.length true := by rw [hrec.1]
      _ = List.replicate (t :: ts).length true := by
            rw [List.length_cons, List.replicate_succ]
    · calc (runChecks limit c led (t :: ts)).2 c
          = (runChecks limit c
              (updateLedger led c (done ++ [t])) ts).2 c := by
            rw [runChecks_cons, hcheck]
      _ = (done ++ [t]) ++ ts := hrec.2
      _ = done ++ t :: ts := by rw [List.append_assoc]; rfl

/-- C2: each rate-limit check prunes entries at least 60 seconds old; at
the cap it rejects without recording (a rejection consumes no slot),
below the cap it records the current time and accepts; a fresh client
whose first N requests fall inside a common 60-second window sees all N
accepted and the (N+1)-th rejected; and once every recorded request has
aged 60 seconds or more, a new request is accepted again. -/
theorem c2_rate_limiter_sliding_window :
    (∀ (limit : ℕ) (led : Ledger) (c : String) (now : ℚ),
      limit ≤ (pruneRequests now (led c)).length →
      checkRateLimit limit led c now =
        (false, updateLedger led c (pruneRequests now (led c)))) ∧
    (∀ (limit : ℕ) (led : Ledger) (c : String) (now : ℚ),
      (pruneRequests now (led c)).length < limit →
      checkRateLimit limit led c now =
        (true, updateLedger led c (pruneRequests now (led c) ++ [now]))) ∧
    (∀ (limit : ℕ) (c : String) (led : Ledger) (ts : List ℚ) (u : ℚ),
      led c = [] →
      (∀ a ∈ ts, u - 60 < a ∧ a ≤ u) →
      ts.length = limit →
      (runChecks limit c led ts).1 = List.replicate limit true ∧
      (checkRateLimit limit (runChecks limit c led ts).2 c u).1 = false) ∧
    (∀ (limit : ℕ) (led : Ledger) (c : String) (u : ℚ),
      0 < limit →
      (∀ t ∈ led c, t ≤ u - 60) →
      (checkRateLimit limit led c u).1 = true) := by
  refine ⟨?_, ?_, ?_, ?_⟩
  · intro limit led c now h
    simp [checkRateLimit, h]
  · intro limit led c now h
    simp [checkRateLimit, not_le.mpr h]
  · intro limit c led ts u hled hts hlen
    have hrun := runChecks_all_accepted limit c u ts [] led hled
      (by simp) hts (by simp [hlen])
    refine ⟨by simpa [hlen] using hrun.1, ?_⟩
    have hled2 : (runChecks limit c led ts).2 c = ts := by
      simpa using hrun.2
    have hprune : pruneRequests u ts = ts := by
      apply List.filter_eq_self.mpr
      intro a ha
      simp only [decide_eq_true_eq]
      exact (hts a ha).1
    have hif :
        limit ≤ (pruneRequests u ((runChecks limit c led ts).2 c)).length := by
      rw [hled2, hprune, hlen]
    simp [checkRateLimit, hif]
  · intro limit led c u hpos hold
    have hprune : pruneRequests u (led c) = [] := by
      apply List.filter_eq_nil_iff.mpr
      intro a ha
      simp only [decide_eq_true_eq, not_lt]
      exact hold a ha
    have hif : ¬ limit ≤ (pruneRequests u (led c)).length := by
      rw [hprune]
      simp
      omega
    simp [checkRateLimit, hif]

theorem c2_rate_limiter_sliding_window_witness :
    (∀ a ∈ [(10 : ℚ), 20], (30 : ℚ) - 60 < a ∧ a ≤ 30) ∧
    ((runChecks 2 "a" (fun _ => []) [(10 : ℚ), 20]).1 =
        List.replicate 2 true ∧
      (checkRateLimit 2 (runChecks 2 "a" (fun _ => []) [(10 : ℚ), 20]).2 "a"
          30).1 = false) := by
  have hmem : ∀ a ∈ [(10 : ℚ), 20], (30 : ℚ) - 60 < a ∧ a ≤ 30 := by
    intro a ha
    simp only [List.mem_cons, List.not_mem_nil, or_false] at ha
    rcases ha with h | h <;> subst h <;> constructor <;> norm_num
  exact ⟨hmem,
    c2_rate_limiter_sliding_window.2.2.1 2 "a" (fun _ => []) [(10 : ℚ), 20] 30
      rfl hmem rfl⟩

end PyWhisper

namespace PyWhisper

lemma floor_div_natCast (s : ℚ) (d : ℕ) (hd : 0 < d) :
    ⌊s / (d : ℚ)⌋ = ⌊s⌋ / (d : ℤ) := by
  have hdq : (0 : ℚ) < (d : ℚ) := by exact_mod_cast hd
  have hdz : (0 : ℤ) < (d : ℤ) := by exact_mod_cast hd
  refine eq_of_forall_le_iff (fun z => ?_)
  rw [Int.le_floor, le_div_iff₀ hdq, Int.le_ediv_iff_mul_le hdz, Int.le_floor]
  push_cast
  rfl

lemma floor_div_3600 (s : ℚ) : ⌊s / (3600 : ℚ)⌋ = ⌊s⌋ / 3600 := by
  simpa using floor_div_natCast s 3600 (by norm_num)

lemma floor_div_60 (s : ℚ) : ⌊s / (60 : ℚ)⌋ = ⌊s⌋ / 60 := by
  simpa using floor_div_natCast s 60 (by norm_num)

lemma floor_frac_nonneg (s : ℚ) : 0 ≤ (s - (⌊s⌋ : ℚ)) * 1000 := by
  have := Int.floor_le s
  nlinarith

lemma floor_minutes (s : ℚ) :
    ⌊(s - 3600 * (⌊s / 3600⌋ : ℚ)) / 60⌋ = (⌊s⌋ % 3600) / 60 := by
  rw [floor_div_60]
  have h3 : s - 3600 * (⌊s / 3600⌋ : ℚ) =
      s - ((3600 * ⌊s / 3600⌋ : ℤ) : ℚ) := by
    push_cast
    ring
  rw [h3, Int.floor_sub_int, floor_div_3600, Int.emod_def]

/-- C5 counterexample: the claim computes milliseconds with `round`, the
code truncates with `int(...)`.  At 2.09375 seconds (a value exact in
binary floating point, fractional part 93.75 ms) the code renders
`...,093` while the claimed rounded value renders `094`. -/
theorem c5_timestamp_millis_truncated_cex :
    format_timestamp_srt (67/32 : ℚ) = "00:00:02,093" ∧
    pad3 (round (((67 : ℚ)/32 - (⌊(67 : ℚ)/32⌋ : ℚ)) * 1000)) = "094" := by
  constructor
  · have h1 : pyInt ((67 : ℚ)/32) = 2 := by norm_num [pyInt]
    have h2 : pyInt (((67 : ℚ)/32 - ((2 : ℤ) : ℚ)) * 1000) = 93 := by
      norm_num [pyInt]
    rw [format_timestamp_srt, h1, h2]
    decide
  · have h3 : ⌊(67 : ℚ)/32⌋ = 2 := by norm_num
    rw [h3]
    have h4 : round (((67 : ℚ)/32 - ((2 : ℤ) : ℚ)) * 1000) = 94 := by
      norm_num [round_eq]
    rw [h4]
    decide

/-- C5 (amended): for non-negative seconds both formatters produce
`HH:MM:SS,mmm` / `HH:MM:SS.mmm` with hours = floor(s/3600),
minutes = floor((s mod 3600)/60), whole seconds = floor(s) mod 60 and
milliseconds = floor — not round — of the fractional part times 1000;
minutes, seconds and milliseconds lie in the ranges that make the
zero-padded fields exactly 2, 2 and 3 digits; 65.5 seconds renders as
`00:01:05,500` / `00:01:05.500` and 0.0 as `00:00:00,000` /
`00:00:00.000`. -/
theorem c5_timestamp_format :
    (∀ s : ℚ, 0 ≤ s →
      format_timestamp_srt s =
        pad2 ⌊s / 3600⌋ ++ ":" ++
        pad2 ⌊(s - 3600 * (⌊s / 3600⌋ : ℚ)) / 60⌋ ++ ":" ++
        pad2 (⌊s⌋ % 60) ++ "," ++
        pad3 ⌊(s - (⌊s⌋ : ℚ)) * 1000⌋ ∧
      format_timestamp_vtt s =
        pad2 ⌊s / 3600⌋ ++ ":" ++
        pad2 ⌊(s - 3600 * (⌊s / 3600⌋ : ℚ)) / 60⌋ ++ ":" ++
        pad2 (⌊s⌋ % 60) ++ "." ++
        pad3 ⌊(s - (⌊s⌋ : ℚ)) * 1000⌋) ∧
    (∀ s : ℚ,
      0 ≤ ⌊(s - (⌊s⌋ : ℚ)) * 1000⌋ ∧ ⌊(s - (⌊s⌋ : ℚ)) * 1000⌋ < 1000 ∧
      0 ≤ ⌊s⌋ % 60 ∧ ⌊s⌋ % 60 < 60 ∧
      0 ≤ (⌊s⌋ % 3600) / 60 ∧ (⌊s⌋ % 3600) / 60 < 60) ∧
    format_timestamp_srt (131/2 : ℚ) = "00:01:05,500" ∧
    format_timestamp_vtt (131/2 : ℚ) = "00:01:05.500" ∧
    format_timestamp_srt 0 = "00:00:00,000" ∧
    format_timestamp_vtt 0 = "00:00:00.000" := by
  refine ⟨?_, ?_, ?_, ?_, ?_, ?_⟩
  · intro s h
    constructor
    · rw [format_timestamp_srt]
      rw [pyInt_eq_floor s h, pyInt_eq_floor _ (floor_frac_nonneg s)]
      rw [floor_minutes, floor_div_3600]
      rfl
    · rw [format_timestamp_vtt]
      rw [pyInt_eq_floor s h, pyInt_eq_floor _ (floor_frac_nonneg s)]
      rw [floor_minutes, floor_div_3600]
      rfl
  · intro s
    refine ⟨Int.floor_nonneg.mpr (floor_frac_nonneg s), ?_, ?_, ?_, ?_, ?_⟩
    · apply Int.floor_lt.mpr
      push_cast
      have h1 : s - (⌊s⌋ : ℚ) < 1 := by
        have := Int.sub_one_lt_floor s
        linarith
      nlinarith
    · exact Int.emod_nonneg _ (by norm_num)
    · exact Int.emod_lt_of_pos _ (by norm_num)
    · exact Int.ediv_nonneg (Int.emod_nonneg _ (by norm_num)) (by norm_num)
    · have hlt : ⌊s⌋ % 3600 < 3600 := Int.emod_lt_of_pos _ (by norm_num)
      omega
  · have h1 : pyInt ((131 : ℚ)/2) = 65 := by norm_num [pyInt]
    have h2 : pyInt (((131 : ℚ)/2 - ((65 : ℤ) : ℚ)) * 1000) = 500 := by
      norm_num [pyInt]
    rw [show (131/2 : ℚ) = (131 : ℚ)/2 by norm_num]
    rw [format_timestamp_srt, h1, h2]
    decide
  · have h1 : pyInt ((131 : ℚ)/2) = 65 := by norm_num [pyInt]
    have h2 : pyInt (((131 : ℚ)/2 - ((65 : ℤ) : ℚ)) * 1000) = 500 := by
      norm_num [pyInt]
    rw [show (131/2 : ℚ) = (131 : ℚ)/2 by norm_num]
    rw [format_timestamp_vtt, h1, h2]
    decide
  · have h1 : pyInt (0 : ℚ) = 0 := by norm_num [pyInt]
    have h2 : pyInt (((0 : ℚ) - ((0 : ℤ) : ℚ)) * 1000) = 0 := by
      norm_num [pyInt]
    rw [format_timestamp_srt, h1, h2]
    decide
  · have h1 : pyInt (0 : ℚ) = 0 := by norm_num [pyInt]
    have h2 : pyInt (((0 : ℚ) - ((0 : ℤ) : ℚ)) * 1000) = 0 := by
      norm_num [pyInt]
    rw [format_timestamp_vtt, h1, h2]
    decide

theorem c5_timestamp_format_witness :
    (0 : ℚ) ≤ 131/2 ∧
    format_timestamp_srt (131/2 : ℚ) =
      pad2 ⌊(131/2 : ℚ) / 3600⌋ ++ ":" ++
      pad2 ⌊((131/2 : ℚ) - 3600 * (⌊(131/2 : ℚ) / 3600⌋ : ℚ)) / 60⌋ ++ ":" ++
      pad2 (⌊(131/2 : ℚ)⌋ % 60) ++ "," ++
      pad3 ⌊((131/2 : ℚ) - (⌊(131/2 : ℚ)⌋ : ℚ)) * 1000⌋ :=
  ⟨by norm_num, ((c5_timestamp_format.1 (131/2 : ℚ) (by norm_num)).1)⟩

end PyWhisper

namespace PyWhisper

lemma except_bind_ok {ε α β : Type} (a : α) (f : α → Except ε β) :
    (Except.ok a : Except ε α) >>= f = f a := rfl

lemma except_bind_error {ε α β : Type} (e : ε) (f : α → Except ε β) :
    (Except.error e : Except ε α) >>= f = Except.error e := rfl

/-- A failing extension check short-circuits the whole validation. -/
lemma validate_upload_ext_error (maxFileSize : ℕ) (f : UploadFile)
    (e : VError) (h : validate_file_extension f.filename = Except.error e) :
    validate_upload_file maxFileSize f = Except.error e := by
  rw [validate_upload_file, h]
  rfl

/-- With the extension accepted, a failing MIME check is next. -/
lemma validate_upload_mime_error (maxFileSize : ℕ) (f : UploadFile)
    (ext : String) (e : VError)
    (h1 : validate_file_extension f.filename = Except.ok ext)
    (h2 : validate_mime_type f.contentType = Except.error e) :
    validate_upload_file maxFileSize f = Except.error e := by
  rw [validate_upload_file, h1, except_bind_ok, h2, except_bind_error]

/-- With extension and MIME accepted, an oversized file fails with the
MiB-formatted message. -/
lemma validate_upload_size_error (maxFileSize : ℕ) (f : UploadFile)
    (ext : String)
    (h1 : validate_file_extension f.filename = Except.ok ext)
    (h2 : validate_mime_type f.contentType = Except.ok ())
    (h3 : maxFileSize < f.content.length) :
    validate_upload_file maxFileSize f = Except.error (VError.fileTooLarge
      ("File size " ++ format2f ((f.content.length : ℚ) / (1024 * 1024)) ++
        "MB exceeds limit " ++
        format2f ((maxFileSize : ℚ) / (1024 * 1024)) ++ "MB")) := by
  have hs : validate_file_size maxFileSize f.content.length =
      Except.error (VError.fileTooLarge
        ("File size " ++ format2f ((f.content.length : ℚ) / (1024 * 1024)) ++
          "MB exceeds limit " ++
          format2f ((maxFileSize : ℚ) / (1024 * 1024)) ++ "MB")) := by
    simp [validate_file_size, h3]
  rw [validate_upload_file, h1, except_bind_ok, h2, except_bind_ok]
  simp only [hs, except_bind_error]

/-- With extension, MIME and size accepted, a failing magic-byte check
is last. -/
lemma validate_upload_magic_error (maxFileSize : ℕ) (f : UploadFile)
    (ext : String)
    (h1 : validate_file_extension f.filename = Except.ok ext)
    (h2 : validate_mime_type f.contentType = Except.ok ())
    (h3 : f.content.length ≤ maxFileSize)
    (h4 : validate_magic_bytes (f.content.take 32) ext = false) :
    validate_upload_file maxFileSize f = Except.error
      (VError.invalidFileFormat
        ("File header does not match " ++ ext ++ " format")) := by
  have hs : validate_file_size maxFileSize f.content.length =
      Except.ok () := by
    simp [validate_file_size, not_lt.mpr h3]
  rw [validate_upload_file, h1, except_bind_ok, h2, except_bind_ok]
  simp only [hs, except_bind_ok, h4]
  rfl

/-- All four checks passing yields the lower-cased extension, the byte
size, and the stream repositioned at the start. -/
lemma validate_upload_ok (maxFileSize : ℕ) (f : UploadFile) (ext : String)
    (h1 : validate_file_extension f.filename = Except.ok ext)
    (h2 : validate_mime_type f.contentType = Except.ok ())
    (h3 : f.content.length ≤ maxFileSize)
    (h4 : validate_magic_bytes (f.content.take 32) ext = true) :
    validate_upload_file maxFileSize f =
      Except.ok (ext, f.content.length, { f with pos := 0 }) := by
  have hs : validate_file_size maxFileSize f.content.length =
      Except.ok () := by
    simp [validate_file_size, not_lt.mpr h3]
  rw [validate_upload_file, h1, except_bind_ok, h2, except_bind_ok]
  simp only [hs, except_bind_ok, h4]
  rfl

/-- C4: upload validation runs extension → MIME → size → magic-byte
checks in that order, short-circuiting on the first failure and
otherwise returning the lower-cased extension and the byte size with the
stream repositioned at 0; `test.mp3` is accepted with `.mp3`, `test.TXT`
is rejected as an invalid format, a file one byte over the 1 GiB default
cap is rejected with actual and limit sizes rendered in MiB to two
decimals, a 32-byte header containing `RIFF` passes for `.wav`, and a
header reading `INVALID` fails for `.mp3`. -/
theorem c4_validate_upload_file_order_and_cases :
    (∀ (maxFileSize : ℕ) (f : UploadFile) (e : VError),
      validate_file_extension f.filename = Except.error e →
      validate_upload_file maxFileSize f = Except.error e) ∧
    (∀ (maxFileSize : ℕ) (f : UploadFile) (ext : String) (e : VError),
      validate_file_extension f.filename = Except.ok ext →
      validate_mime_type f.contentType = Except.error e →
      validate_upload_file maxFileSize f = Except.error e) ∧
    (∀ (maxFileSize : ℕ) (f : UploadFile) (ext : String),
      validate_file_extension f.filename = Except.ok ext →
      validate_mime_type f.contentType = Except.ok () →
      maxFileSize < f.content.length →
      validate_upload_file maxFileSize f = Except.error (VError.fileTooLarge
        ("File size " ++ format2f ((f.content.length : ℚ) / (1024 * 1024)) ++
          "MB exceeds limit " ++
          format2f ((maxFileSize : ℚ) / (1024 * 1024)) ++ "MB"))) ∧
    (∀ (maxFileSize : ℕ) (f : UploadFile) (ext : String),
      validate_file_extension f.filename = Except.ok ext →
      validate_mime_type f.contentType = Except.ok () →
      f.content.length ≤ maxFileSize →
      validate_magic_bytes (f.content.take 32) ext = false →
      validate_upload_file maxFileSize f = Except.error
        (VError.invalidFileFormat
          ("File header does not match " ++ ext ++ " format"))) ∧
    (∀ (maxFileSize : ℕ) (f : UploadFile) (ext : String),
      validate_file_extension f.filename = Except.ok ext →
      validate_mime_type f.contentType = Except.ok () →
      f.content.length ≤ maxFileSize →
      validate_magic_bytes (f.content.take 32) ext = true →
      validate_upload_file maxFileSize f =
        Except.ok (ext, f.content.length, { f with pos := 0 })) ∧
    validate_upload_file 1000 ⟨"test.mp3", "audio/mpeg",
        [73, 68, 51, 0, 0], 7⟩ =
      Except.ok (".mp3", 5, ⟨"test.mp3", "audio/mpeg",
        [73, 68, 51, 0, 0], 0⟩) ∧
    validate_upload_file 1000 ⟨"test.TXT", "text/plain", [], 0⟩ =
      Except.error (VError.invalidFileFormat
        ("Unsupported file format: .txt. Supported formats: " ++
          ".aac, .avi, .flac, .flv, .m4a, .mkv, .mov, .mp3, .mp4, " ++
          ".ogg, .wav, .webm, .wma")) ∧
    validate_upload_file 1073741824
        ⟨"big.mp3", "audio/mpeg", List.replicate 1073741825 0, 0⟩ =
      Except.error (VError.fileTooLarge
        "File size 1024.00MB exceeds limit 1024.00MB") ∧
    validate_magic_bytes ([82, 73, 70, 70] ++ List.replicate 28 0)
      ".wav" = true ∧
    validate_upload_file 1000 ⟨"a.wav", "audio/wav",
        [82, 73, 70, 70] ++ List.replicate 28 0, 0⟩ =
      Except.ok (".wav", 32, ⟨"a.wav", "audio/wav",
        [82, 73, 70, 70] ++ List.replicate 28 0, 0⟩) ∧
    validate_magic_bytes [73, 78, 86, 65, 76, 73, 68] ".mp3" = false ∧
    validate_upload_file 1000 ⟨"test.mp3", "audio/mpeg",
        [73, 78, 86, 65, 76, 73, 68], 0⟩ =
      Except.error (VError.invalidFileFormat
        "File header does not match .mp3 format") := by
  refine ⟨validate_upload_ext_error, validate_upload_mime_error,
    validate_upload_size_error, validate_upload_magic_error,
    validate_upload_ok, by rfl, by rfl, ?_, by decide, by rfl, by decide,
    by rfl⟩
  have h3 : (1073741824 : ℕ) <
      (List.replicate 1073741825 (0 : ℕ)).length := by
    rw [List.length_replicate]
    omega
  have hres := validate_upload_size_error 1073741824
    ⟨"big.mp3", "audio/mpeg", List.replicate 1073741825 0, 0⟩ ".mp3"
    rfl rfl h3
  rw [hres]
  have f1 : format2f ((1073741825 : ℚ)/(1024*1024)) = "1024.00" := by
    rw [format2f]
    norm_num
    rfl
  have f2 : format2f ((1073741824 : ℚ)/(1024*1024)) = "1024.00" := by
    rw [format2f]
    norm_num
    rfl
  have hl : (((⟨"big.mp3", "audio/mpeg", List.replicate 1073741825 0, 0⟩ :
      UploadFile).content.length : ℕ) : ℚ) = 1073741825 := by
    show ((List.replicate 1073741825 (0 : ℕ)).length : ℚ) = 1073741825
    rw [List.length_replicate]
    norm_num
  have hc : ((1073741824 : ℕ) : ℚ) = 1073741824 := by norm_num
  rw [hl, hc, f1, f2]
  rfl

theorem c4_validate_upload_file_witness :
    validate_file_extension "test.TXT" = Except.error
      (VError.invalidFileFormat
        ("Unsupported file format: .txt. Supported formats: " ++
          ".aac, .avi, .flac, .flv, .m4a, .mkv, .mov, .mp3, .mp4, " ++
          ".ogg, .wav, .webm, .wma")) ∧
    validate_upload_file 1000 ⟨"test.TXT", "text/plain", [], 0⟩ =
      Except.error (VError.invalidFileFormat
        ("Unsupported file format: .txt. Supported formats: " ++
          ".aac, .avi, .flac, .flv, .m4a, .mkv, .mov, .mp3, .mp4, " ++
          ".ogg, .wav, .webm, .wma")) :=
  ⟨rfl, c4_validate_upload_file_order_and_cases.1 1000
    ⟨"test.TXT", "text/plain", [], 0⟩ _ rfl⟩

end PyWhisper

namespace PyWhisper

lemma toNat_ofNat_valid (n : ℕ) (h : n.isValidChar) :
    (Char.ofNat n).toNat = n := by
  rw [Char.ofNat, dif_pos h]
  rfl

/-- ASCII lowering never produces the path separator. -/
lemma toLower_ne_slash {c : Char} (h : c ≠ '/') : c.toLower ≠ '/' := by
  intro heq
  unfold Char.toLower at heq
  change (if c.toNat ≥ 65 ∧ c.toNat ≤ 90 then Char.ofNat (c.toNat + 32)
    else c) = '/' at heq
  split at heq
  · rename_i hc
    have hv : (c.toNat + 32).isValidChar := Or.inl (by omega)
    have h2 := congrArg Char.toNat heq
    rw [toNat_ofNat_valid _ hv] at h2
    have h47 : ('/' : Char).toNat = 47 := rfl
    rw [h47] at h2
    omega
  · exact h heq

/-- The `splitext` extension never contains the path separator: it is
drawn from the basename (the part after the last `/`) plus a dot. -/
lemma splitextExt_no_slash (p : List Char) :
    ∀ a ∈ splitextExt p, a ≠ '/' := by
  intro a ha
  simp only [splitextExt] at ha
  split at ha
  · simp at ha
  · split at ha
    · rw [List.mem_reverse, List.mem_append] at ha
      rcases ha with hpre | hdot
      · have hrb : a ∈ (p.reverse.takeWhile
            (fun c => decide (c ≠ '/'))).reverse.reverse :=
          List.takeWhile_subset _ hpre
        rw [List.reverse_reverse] at hrb
        have := List.mem_takeWhile_imp hrb
        simpa using this
      · simp at hdot
        subst hdot
        decide
    · simp at ha

/-- A separator-free name splits into a single path component. -/
lemma splitComps_no_slash (l : List Char) (h : ∀ a ∈ l, a ≠ '/') :
    splitComps l = [l] := by
  induction l with
  | nil => rfl
  | cons c rest ih =>
    have hc : c ≠ '/' := h c (by simp)
    have hrest := ih (fun a ha => h a (List.mem_cons_of_mem _ ha))
    rw [splitComps, hrest]
    simp [hc]

lemma isPrefixOf_append (l r : List Char) : l.isPrefixOf (l ++ r) = true := by
  induction l with
  | nil => simp
  | cons c rest ih => simp [List.isPrefixOf_cons₂, ih]

lemma renderPath_append (xs : List (List Char)) (c : List Char) :
    renderPath (xs ++ [c]) = renderPath xs ++ '/' :: c := by
  simp [renderPath, List.foldl_append]

/-- Resolution is the identity on paths without `.` or `..`. -/
lemma resolveComponents_normal (xs : List (List Char))
    (h : ∀ c ∈ xs, c ≠ ['.'] ∧ c ≠ ['.', '.']) :
    resolveComponents xs = xs := by
  suffices hgen : ∀ acc, xs.foldl
      (fun acc c =>
        if c = ['.'] then acc
        else if c = ['.', '.'] then acc.dropLast
        else acc ++ [c]) acc = acc ++ xs by
    simpa using hgen []
  induction xs with
  | nil => intro acc; simp
  | cons c rest ih =>
    intro acc
    have hc := h c (by simp)
    rw [List.foldl_cons, if_neg hc.1, if_neg hc.2]
    rw [ih (fun a ha => h a (List.mem_cons_of_mem _ ha))]
    simp

lemma resolveComponents_snoc (xs : List (List Char)) (c : List Char)
    (h1 : c ≠ ['.']) (h2 : c ≠ ['.', '.']) :
    resolveComponents (xs ++ [c]) = resolveComponents xs ++ [c] := by
  rw [resolveComponents, List.foldl_append]
  rw [List.foldl_cons, if_neg h1, if_neg h2]
  rfl

/-- C1: for a resolved base directory (no `.`/`..` components) and a
fresh hex token (non-empty, no `/` or `.` characters), `get_safe_path`
never raises on any input filename — traversal sequences included — and
returns exactly the base directory extended with one component, the
token followed by the lower-cased `splitext` extension; the rendered
resolved path therefore keeps the rendered base directory as a string
prefix, and the result depends on the filename only through its
extension, never through its basename. -/
theorem c1_get_safe_path_confines :
    ∀ (baseDir : List (List Char)) (uniqueId : List Char)
      (filename : List Char),
      (∀ comp ∈ baseDir, comp ≠ ['.'] ∧ comp ≠ ['.', '.']) →
      uniqueId ≠ [] →
      (∀ ch ∈ uniqueId, ch ≠ '/' ∧ ch ≠ '.') →
      (get_safe_path baseDir uniqueId filename =
        Except.ok (baseDir ++
          [uniqueId ++ (splitextExt filename).map Char.toLower]) ∧
      (∃ rest, renderPath (baseDir ++
          [uniqueId ++ (splitextExt filename).map Char.toLower]) =
        renderPath baseDir ++ rest) ∧
      (∀ filename2 : List Char,
        splitextExt filename2 = splitextExt filename →
        get_safe_path baseDir uniqueId filename2 =
          get_safe_path baseDir uniqueId filename)) := by
  intro baseDir uniqueId filename hbase huid huidchars
  set ext := (splitextExt filename).map Char.toLower with hext
  set safe := uniqueId ++ ext with hsafe
  have hsafe_slash : ∀ ch ∈ safe, ch ≠ '/' := by
    intro ch hch
    rcases List.mem_append.mp hch with h | h
    · exact (huidchars ch h).1
    · rcases List.mem_map.mp h with ⟨b, hb, rfl⟩
      exact toLower_ne_slash (splitextExt_no_slash filename b hb)
  have hsafe_ne : safe ≠ [] := by
    intro hcon
    exact huid (List.append_eq_nil.mp hcon).1
  have hsplit : splitComps safe = [safe] :=
    splitComps_no_slash safe hsafe_slash
  have hjoin : joinRel baseDir safe = baseDir ++ [safe] := by
    rw [joinRel, hsplit]
    simp [hsafe_ne]
  have hhead : ∃ u us, uniqueId = u :: us ∧ u ≠ '.' := by
    cases uniqueId with
    | nil => exact absurd rfl huid
    | cons u us => exact ⟨u, us, rfl, (huidchars u (by simp)).2⟩
  obtain ⟨u, us, huu, hu⟩ := hhead
  have hdot : safe ≠ ['.'] := by
    rw [hsafe, huu]
    intro hcon
    have := List.cons.injEq u (us ++ ext) '.' [] ▸ hcon
    simp at this
    exact hu this.1
  have hdotdot : safe ≠ ['.', '.'] := by
    rw [hsafe, huu]
    intro hcon
    simp at hcon
    exact hu hcon.1
  have hresolve : resolveComponents (baseDir ++ [safe]) =
      baseDir ++ [safe] := by
    rw [resolveComponents_snoc baseDir safe hdot hdotdot,
      resolveComponents_normal baseDir hbase]
  have hrender : renderPath (baseDir ++ [safe]) =
      renderPath baseDir ++ '/' :: safe := renderPath_append baseDir safe
  have hpref : (renderPath baseDir).isPrefixOf
      (renderPath (baseDir ++ [safe])) = true := by
    rw [hrender]
    exact isPrefixOf_append _ _
  have hmain : get_safe_path baseDir uniqueId filename =
      Except.ok (baseDir ++ [safe]) := by
    rw [get_safe_path]
    rw [← hext, ← hsafe, hjoin, hresolve, if_pos hpref]
  refine ⟨hmain, ⟨'/' :: safe, hrender⟩, ?_⟩
  intro filename2 heq
  rw [get_safe_path, get_safe_path, heq]

theorem c1_get_safe_path_confines_witness :
    (∀ comp ∈ [['t', 'm', 'p']], comp ≠ ['.'] ∧ comp ≠ ['.', '.']) ∧
    ("0123456789abcdef0123456789abcdef".toList ≠ []) ∧
    (∀ ch ∈ "0123456789abcdef0123456789abcdef".toList,
      ch ≠ '/' ∧ ch ≠ '.') ∧
    get_safe_path [['t', 'm', 'p']] "0123456789abcdef0123456789abcdef".toList
        "../../../etc/passwd".toList =
      Except.ok ([['t', 'm', 'p']] ++
        ["0123456789abcdef0123456789abcdef".toList ++
          (splitextExt "../../../etc/passwd".toList).map Char.toLower]) :=
  ⟨by decide, by decide, by decide,
    (c1_get_safe_path_confines [['t', 'm', 'p']]
      "0123456789abcdef0123456789abcdef".toList
      "../../../etc/passwd".toList
      (by decide) (by decide) (by decide)).1⟩

end PyWhisper
